import Mathlib

/-!
Verification of the testsuite's core helpers: the condition poller
(`wait_for_condition`), the HTTP result client (`APIClient`), the
OpenSearch query builders (`OpenSearchQueries`), and the data-masking
helper (`mask_sensitive_data`), shallowly embedded from
`testsuite/src/utils.py`, `testsuite/src/os_queries.py` and the e2e test
helpers.
-/

/-! ## Condition poller (`wait_for_condition`, utils.py lines 96-132)

The Python loop is

```
start_time = time.time()
while time.time() - start_time < timeout:
    try:
        result = condition_func()
        if result: return True
    except Exception as e:
        print(...)            # log and continue
    await asyncio.sleep(interval)
print("Timeout ...")
return False
```

The embedding makes time explicit: the k-th invocation of the predicate is
an `Except Unit Bool` (`Except.error` models a raised exception,
`Except.ok b` a returned value of truthiness `b`) and consumes `dur k`
seconds; each `asyncio.sleep` consumes `interval` seconds.  The wall clock
is a natural number of elapsed seconds, compared against the integer
`timeout` exactly as the `while` guard does.  The loop is driven by fuel
`timeout.toNat + 1`, which is enough iterations whenever `interval ≥ 1`
(each loop body then advances the clock by at least one second, and the
guard requires the clock to be below `timeout`); when the fuel runs out
the loop reports the same timeout result as the guard failing, so the two
exits agree on every run the fuel bound covers.
-/

/-- Outcome of one `wait_for_condition` run: the returned boolean, the
elapsed time at return, how many predicate exceptions were caught and
logged, and how many times the predicate was invoked. -/
structure PollRun where
  result : Bool
  finish : Nat
  errors : Nat
  calls : Nat
deriving DecidableEq, Repr

/-- The `while` loop of `wait_for_condition`, one fuel unit per guard
check.  State: next invocation index `k`, elapsed seconds, exceptions
caught so far, invocations so far. -/
def pollLoop (p : Nat → Except Unit Bool) (dur : Nat → Nat) (timeout : Int)
    (interval : Nat) : Nat → Nat → Nat → Nat → Nat → PollRun
  | 0, _, elapsed, errs, calls => ⟨false, elapsed, errs, calls⟩
  | fuel + 1, k, elapsed, errs, calls =>
    if (elapsed : Int) < timeout then
      match p k with
      | Except.ok true => ⟨true, elapsed + dur k, errs, calls + 1⟩
      | Except.ok false =>
          pollLoop p dur timeout interval fuel (k + 1)
            (elapsed + dur k + interval) errs (calls + 1)
      | Except.error _ =>
          pollLoop p dur timeout interval fuel (k + 1)
            (elapsed + dur k + interval) (errs + 1) (calls + 1)
    else ⟨false, elapsed, errs, calls⟩

/-- `wait_for_condition(condition_func, timeout, interval, description)`:
the clock starts at zero and the loop guard is checked before every
invocation.  The `description` parameter only labels log lines and is
omitted. -/
def wait_for_condition (p : Nat → Except Unit Bool) (dur : Nat → Nat)
    (timeout : Int) (interval : Nat) : PollRun :=
  pollLoop p dur timeout interval (timeout.toNat + 1) 0 0 0 0

/-! ### Helper lemmas about the loop -/

/-- If no invocation ever returns a truthy value, every run of the loop
returns `false`, whatever the timing. -/
theorem pollLoop_result_false (p : Nat → Except Unit Bool) (dur : Nat → Nat)
    (timeout : Int) (interval : Nat) (h : ∀ k, p k ≠ Except.ok true) :
    ∀ fuel k elapsed errs calls,
      (pollLoop p dur timeout interval fuel k elapsed errs calls).result = false := by
  intro fuel
  induction fuel with
  | zero => intro k elapsed errs calls; rfl
  | succ n ih =>
    intro k elapsed errs calls
    unfold pollLoop
    split
    · cases hp : p k with
      | ok b =>
        cases b with
        | true => exact absurd hp (h k)
        | false => exact ih (k + 1) (elapsed + dur k + interval) errs (calls + 1)
      | error e => exact ih (k + 1) (elapsed + dur k + interval) (errs + 1) (calls + 1)
    · rfl

/-- With an instantaneous predicate (`dur = 0`) and a positive interval:
if some invocation whose index is still ahead returns a truthy value at a
clock reading below the timeout, the loop returns `true` strictly before
the timeout.  The invariants tie the clock to the invocation index and
give fuel adequacy. -/
theorem pollLoop_reaches_true (p : Nat → Except Unit Bool) (timeout : Int)
    (interval : Nat) (hi : 1 ≤ interval) :
    ∀ (fuel k elapsed errs calls : Nat),
      elapsed = k * interval →
      timeout ≤ (elapsed : Int) + (fuel : Int) →
      (∃ m, k ≤ m ∧ ((m * interval : Nat) : Int) < timeout ∧ p m = Except.ok true) →
      (pollLoop p (fun _ => 0) timeout interval fuel k elapsed errs calls).result = true ∧
      ((pollLoop p (fun _ => 0) timeout interval fuel k elapsed errs calls).finish : Int)
        < timeout := by
  intro fuel
  induction fuel with
  | zero =>
    intro k elapsed errs calls hke hfuel hex
    obtain ⟨m, hkm, hm, _⟩ := hex
    have hmul : k * interval ≤ m * interval := Nat.mul_le_mul_right interval hkm
    subst hke
    omega
  | succ n ih =>
    intro k elapsed errs calls hke hfuel hex
    have hguard : (elapsed : Int) < timeout := by
      obtain ⟨m, hkm, hm, _⟩ := hex
      have hmul : k * interval ≤ m * interval := Nat.mul_le_mul_right interval hkm
      subst hke
      omega
    unfold pollLoop
    rw [if_pos hguard]
    cases hp : p k with
    | ok b =>
      cases b with
      | true => exact ⟨rfl, by simpa using hguard⟩
      | false =>
        obtain ⟨m, hkm, hm, hpm⟩ := hex
        have hne : k ≠ m := fun he => by rw [← he, hp] at hpm; cases hpm
        refine ih (k + 1) (elapsed + 0 + interval) errs (calls + 1) ?_ (by omega)
          ⟨m, by omega, hm, hpm⟩
        subst hke
        ring
    | error e =>
      obtain ⟨m, hkm, hm, hpm⟩ := hex
      have hne : k ≠ m := fun he => by rw [← he, hp] at hpm; cases hpm
      refine ih (k + 1) (elapsed + 0 + interval) (errs + 1) (calls + 1) ?_ (by omega)
        ⟨m, by omega, hm, hpm⟩
      subst hke
      ring

/-- With an instantaneous predicate that returns a falsy value on every
invocation, the loop returns `false` at the first clock reading at or
past the timeout; that reading is within one interval above the timeout
provided it entered in that window. -/
theorem pollLoop_false_timing (p : Nat → Except Unit Bool) (timeout : Int)
    (interval : Nat) (hi : 1 ≤ interval) (hp : ∀ k, p k = Except.ok false) :
    ∀ (fuel k elapsed errs calls : Nat),
      timeout ≤ (elapsed : Int) + (fuel : Int) →
      (elapsed : Int) < timeout + interval →
      (pollLoop p (fun _ => 0) timeout interval fuel k elapsed errs calls).result = false ∧
      timeout ≤ ((pollLoop p (fun _ => 0) timeout interval fuel k elapsed errs calls).finish : Int) ∧
      ((pollLoop p (fun _ => 0) timeout interval fuel k elapsed errs calls).finish : Int)
        < timeout + interval := by
  intro fuel
  induction fuel with
  | zero =>
    intro k elapsed errs calls hfuel hwin
    exact ⟨rfl, by simpa using hfuel, by simpa using hwin⟩
  | succ n ih =>
    intro k elapsed errs calls hfuel hwin
    unfold pollLoop
    split
    · rw [hp k]
      refine ih (k + 1) (elapsed + 0 + interval) errs (calls + 1) (by omega) ?_
      have : (elapsed : Int) < timeout := by assumption
      push_cast
      omega
    · refine ⟨rfl, ?_, by simpa using hwin⟩
      simp only []
      omega

/-! ### The poller claims -/

/-- Claim C1: for every zero-argument predicate, timing, timeout and interval,
if the predicate raises on some or all invocations the poller never propagates
the exception to its caller — the embedded poller is a total function into
`PollRun`, every raised exception being absorbed into the `errors` count while
polling continues — and if no invocation ever returns a truthy value before
the timeout elapses it returns `false` rather than raising. -/
theorem wait_for_condition_no_truthy_returns_false (p : Nat → Except Unit Bool)
    (dur : Nat → Nat) (timeout : Int) (interval : Nat)
    (h : ∀ k, p k ≠ Except.ok true) :
    (wait_for_condition p dur timeout interval).result = false :=
  pollLoop_result_false p dur timeout interval h (timeout.toNat + 1) 0 0 0 0

/-- Witness for C1: a predicate that raises on every invocation, with
`timeout = 3`, `interval = 1`. -/
theorem wait_for_condition_no_truthy_returns_false_witness :
    (wait_for_condition (fun _ => Except.error ()) (fun _ => 0) 3 1).result = false :=
  wait_for_condition_no_truthy_returns_false (fun _ => Except.error ()) (fun _ => 0) 3 1
    (fun _ h => Except.noConfusion h)

/-- Claim C2: modelling predicate invocations as instantaneous (`dur = 0`, so
the k-th invocation happens at clock `k * interval`), for every predicate that
returns a truthy value at an invocation falling within the timeout — in
particular one truthy at every invocation — the poller returns `true`, and it
does so within at most `timeout + interval` of starting (in fact strictly
before the timeout elapses). -/
theorem wait_for_condition_truthy_returns_true (p : Nat → Except Unit Bool)
    (timeout : Int) (interval : Nat) (hi : 1 ≤ interval)
    (h : ∃ m, ((m * interval : Nat) : Int) < timeout ∧ p m = Except.ok true) :
    (wait_for_condition p (fun _ => 0) timeout interval).result = true ∧
    ((wait_for_condition p (fun _ => 0) timeout interval).finish : Int)
      ≤ timeout + interval := by
  obtain ⟨m, hm, hpm⟩ := h
  unfold wait_for_condition
  have hmain := pollLoop_reaches_true p timeout interval hi (timeout.toNat + 1) 0 0 0 0
    (by simp) (by omega) ⟨m, Nat.zero_le m, hm, hpm⟩
  refine ⟨hmain.1, ?_⟩
  have h2 := hmain.2
  omega

/-- Witness for C2: a predicate truthy at every invocation, `timeout = 5`,
`interval = 1`. -/
theorem wait_for_condition_truthy_returns_true_witness :
    (wait_for_condition (fun _ => Except.ok true) (fun _ => 0) 5 1).result = true ∧
    ((wait_for_condition (fun _ => Except.ok true) (fun _ => 0) 5 1).finish : Int)
      ≤ 5 + 1 :=
  wait_for_condition_truthy_returns_true (fun _ => Except.ok true) 5 1 (by decide)
    ⟨0, by decide, rfl⟩

/-- Claim C3: with instantaneous invocations, for every predicate that returns
a falsy value on every invocation and every positive timeout and positive
interval, the poller terminates and returns `false` after approximately the
timeout — at or after the timeout and strictly within one interval past it —
and never returns before the timeout has elapsed. -/
theorem wait_for_condition_always_false_times_out (p : Nat → Except Unit Bool)
    (timeout : Int) (interval : Nat) (hp : ∀ k, p k = Except.ok false)
    (ht : 0 < timeout) (hi : 1 ≤ interval) :
    (wait_for_condition p (fun _ => 0) timeout interval).result = false ∧
    timeout ≤ ((wait_for_condition p (fun _ => 0) timeout interval).finish : Int) ∧
    ((wait_for_condition p (fun _ => 0) timeout interval).finish : Int)
      < timeout + interval := by
  unfold wait_for_condition
  exact pollLoop_false_timing p timeout interval hi hp (timeout.toNat + 1) 0 0 0 0
    (by omega) (by omega)

/-- Witness for C3: an always-falsy predicate with `timeout = 5`,
`interval = 2`. -/
theorem wait_for_condition_always_false_times_out_witness :
    (wait_for_condition (fun _ => Except.ok false) (fun _ => 0) 5 2).result = false ∧
    (5 : Int) ≤ ((wait_for_condition (fun _ => Except.ok false) (fun _ => 0) 5 2).finish : Int) ∧
    ((wait_for_condition (fun _ => Except.ok false) (fun _ => 0) 5 2).finish : Int)
      < 5 + 2 :=
  wait_for_condition_always_false_times_out (fun _ => Except.ok false) 5 2
    (fun _ => rfl) (by decide) (by decide)

/-- Claim C4: with `timeout = 5` seconds, `interval = 1` second and a predicate
that raises a transport error on every invocation (raising immediately), the
poller returns `false` and catches and logs the exception at least 4 times —
in fact exactly 5, one per poll iteration at clocks 0,1,2,3,4. -/
theorem wait_for_condition_raising_5s_1s (p : Nat → Except Unit Bool)
    (hp : ∀ k, p k = Except.error ()) :
    (wait_for_condition p (fun _ => 0) 5 1).result = false ∧
    4 ≤ (wait_for_condition p (fun _ => 0) 5 1).errors := by
  have hfun : p = fun _ => Except.error () := funext hp
  subst hfun
  decide

/-- Witness for C4: the always-raising predicate itself. -/
theorem wait_for_condition_raising_5s_1s_witness :
    (wait_for_condition (fun _ => Except.error ()) (fun _ => 0) 5 1).result = false ∧
    4 ≤ (wait_for_condition (fun _ => Except.error ()) (fun _ => 0) 5 1).errors :=
  wait_for_condition_raising_5s_1s (fun _ => Except.error ()) (fun _ => rfl)

/-- Claim C9: for every predicate, timing function and interval, a call with
`timeout ≤ 0` returns `false` without ever invoking the predicate (`calls = 0`,
no logged errors, elapsed time zero) — even if the predicate would have
returned a truthy value, as the universal quantification over `p` shows. -/
theorem wait_for_condition_nonpositive_timeout (p : Nat → Except Unit Bool)
    (dur : Nat → Nat) (timeout : Int) (interval : Nat) (h : timeout ≤ 0) :
    wait_for_condition p dur timeout interval = ⟨false, 0, 0, 0⟩ := by
  unfold wait_for_condition pollLoop
  rw [if_neg (by omega)]

/-- Witness for C9: `timeout = 0` with an always-truthy predicate. -/
theorem wait_for_condition_nonpositive_timeout_witness :
    wait_for_condition (fun _ => Except.ok true) (fun _ => 0) 0 2 = ⟨false, 0, 0, 0⟩ :=
  wait_for_condition_nonpositive_timeout (fun _ => Except.ok true) (fun _ => 0) 0 2
    (by decide)

/-! ## Job-status poll predicates (e2e helpers)

`test_agent_recon.py` lines 393-399:

```
async def _check_run_completed(api_client, run_id) -> bool:
    try:
        status = await api_client.get(f"/runs/{run_id}")
        return status["status"] in ["completed", "failed", "error", "partial"]
    except Exception:
        return False
```

`test_agent_creds.py` lines 38-40 (no try/except of its own):

```
async def check_completed():
    status = await api_client.get(f"/runs/{run_id}")
    return status["status"] in ["completed", "failed", "error"]
```

The fetch is embedded as its outcome: `Except.ok s` when the GET returned a
record whose `status` field is `s`, `Except.error ()` when it raised. -/

/-- The job lifecycle's terminal statuses as the spec enumerates them
(spec §4.3: "Terminal states for the job: `completed`, `failed`, `error`,
`partial`, `stopped`"). -/
def terminalStatusesSpec : List String :=
  ["completed", "failed", "error", "partial", "stopped"]

/-- `_check_run_completed` from `test_agent_recon.py`, as a function of the
outcome of the status fetch. -/
def check_run_completed (fetched : Except Unit String) : Bool :=
  match fetched with
  | Except.ok status => decide (status ∈ ["completed", "failed", "error", "partial"])
  | Except.error _ => false

/-- `check_completed` from `test_agent_creds.py`, as a function of the fetched
status (a raising fetch propagates out of this predicate and is absorbed by
`wait_for_condition` instead). -/
def check_completed (status : String) : Bool :=
  decide (status ∈ ["completed", "failed", "error"])

/-- Counterexample to C5: `"stopped"` is one of the five terminal statuses the
spec enumerates, yet neither poll predicate returns `true` on it, so neither
predicate returns `true` exactly on the five terminal statuses. -/
theorem check_run_completed_misses_stopped :
    "stopped" ∈ terminalStatusesSpec ∧
    check_run_completed (Except.ok "stopped") = false ∧
    check_completed "stopped" = false := by
  refine ⟨?_, rfl, rfl⟩
  simp [terminalStatusesSpec]

/-- Claim C5, amended: the job-status poll predicates end the poll phase on a
proper subset of the terminal statuses: the recon helper
`_check_run_completed` returns `true` exactly on
`completed`/`failed`/`error`/`partial` (and `false` when the fetch raises),
the creds helper `check_completed` exactly on `completed`/`failed`/`error`;
`stopped`, though terminal, ends neither, and every status either accepts is
terminal, so no non-terminal status (`pending`, `running`) ends the poll. -/
theorem check_run_completed_characterization :
    ∀ s : String,
      (check_run_completed (Except.ok s) = true ↔
        s ∈ (["completed", "failed", "error", "partial"] : List String)) ∧
      (check_completed s = true ↔
        s ∈ (["completed", "failed", "error"] : List String)) ∧
      (check_run_completed (Except.ok s) = true → s ∈ terminalStatusesSpec) ∧
      (check_completed s = true → s ∈ terminalStatusesSpec) ∧
      check_run_completed (Except.error ()) = false ∧
      check_run_completed (Except.ok "pending") = false ∧
      check_run_completed (Except.ok "running") = false := by
  intro s
  refine ⟨?_, ?_, ?_, ?_, rfl, rfl, rfl⟩
  · simp [check_run_completed]
  · simp [check_completed]
  · simp only [check_run_completed, decide_eq_true_eq, terminalStatusesSpec]
    intro h
    simp only [List.mem_cons, List.not_mem_nil] at h ⊢
    tauto
  · simp only [check_completed, decide_eq_true_eq, terminalStatusesSpec]
    intro h
    simp only [List.mem_cons, List.not_mem_nil] at h ⊢
    tauto

/-! ## Result Client (`APIClient`, utils.py lines 12-93)

Each verb method builds `urljoin(self.base_url + '/', endpoint.lstrip('/'))`,
issues the request through the lazily created `httpx` client, calls
`response.raise_for_status()` and returns `response.json()`.  The network is
embedded as a function from the issued request (verb, url, payload) to its
outcome: either a response with an HTTP status, raw body and optional parsed
JSON body (`none` when the body is not valid JSON), or a transport-level
failure (connection refused / DNS / socket timeout, which `httpx` raises as a
`TransportError`).  `urljoin` is modelled for the plain relative paths the
suite passes (no scheme, no `..` segments), where it reduces to
concatenation. -/

/-- Errors a verb call can raise: `httpError` models `httpx.HTTPStatusError`
(carrying the response's status code and body, raised by
`raise_for_status`), `transportError` models `httpx.TransportError`, and
`decodeError` a `response.json()` parse failure on a success response. -/
inductive APIError where
  | httpError (status : Nat) (body : String)
  | transportError
  | decodeError
deriving DecidableEq, Repr

/-- Outcome of one wire-level request. -/
inductive ReqOutcome (J : Type) where
  | resp (status : Nat) (body : String) (json : Option J)
  | transportFail

/-- The four HTTP verbs the client exposes. -/
inductive Verb where
  | get
  | post
  | put
  | delete
deriving DecidableEq, Repr

/-- `httpx.Response.is_success`: a 2xx status code. -/
def is_success (status : Nat) : Bool :=
  decide (200 ≤ status) && decide (status < 300)

/-- `endpoint.lstrip('/')`. -/
def lstripSlash (s : String) : String :=
  String.mk (s.toList.dropWhile (· == '/'))

/-- `base_url.rstrip('/')` from the `APIClient` constructor. -/
def rstripSlash (s : String) : String :=
  String.mk ((s.toList.reverse.dropWhile (· == '/')).reverse)

/-- `urljoin(base_url + '/', endpoint.lstrip('/'))` for a plain relative
endpoint. -/
def urljoinRel (base endpoint : String) : String :=
  base ++ "/" ++ lstripSlash endpoint

/-- The `APIClient` configuration: base URL (already stripped of trailing
slashes) and request timeout in seconds. -/
structure APIClient where
  base_url : String
  timeout : Nat

/-- The `APIClient` constructor: strips trailing slashes off the base URL. -/
def APIClient.init (base_url : String) (timeout : Nat) : APIClient :=
  ⟨rstripSlash base_url, timeout⟩

/-- `response.raise_for_status()`: returns normally on a 2xx status, raises an
`HTTPStatusError` carrying the status code and body otherwise. -/
def raise_for_status (status : Nat) (body : String) : Except APIError Unit :=
  if is_success status then Except.ok ()
  else Except.error (APIError.httpError status body)

/-- The shared tail of every verb method: propagate a transport failure,
then `raise_for_status`, then parse the body. -/
def doRequest {J : Type} (o : ReqOutcome J) : Except APIError J :=
  match o with
  | ReqOutcome.transportFail => Except.error APIError.transportError
  | ReqOutcome.resp status body json =>
    match raise_for_status status body with
    | Except.error e => Except.error e
    | Except.ok _ =>
      match json with
      | some v => Except.ok v
      | none => Except.error APIError.decodeError

/-- `APIClient.get(endpoint, params)`. -/
def APIClient.get {J P : Type} (c : APIClient)
    (net : Verb → String → Option P → ReqOutcome J) (endpoint : String)
    (params : Option P) : Except APIError J :=
  doRequest (net Verb.get (urljoinRel c.base_url endpoint) params)

/-- `APIClient.post(endpoint, data)`. -/
def APIClient.post {J P : Type} (c : APIClient)
    (net : Verb → String → Option P → ReqOutcome J) (endpoint : String)
    (data : Option P) : Except APIError J :=
  doRequest (net Verb.post (urljoinRel c.base_url endpoint) data)

/-- `APIClient.put(endpoint, data)`. -/
def APIClient.put {J P : Type} (c : APIClient)
    (net : Verb → String → Option P → ReqOutcome J) (endpoint : String)
    (data : Option P) : Except APIError J :=
  doRequest (net Verb.put (urljoinRel c.base_url endpoint) data)

/-- `APIClient.delete(endpoint)`: no payload. -/
def APIClient.delete {J P : Type} (c : APIClient)
    (net : Verb → String → Option P → ReqOutcome J) (endpoint : String) :
    Except APIError J :=
  doRequest (net Verb.delete (urljoinRel c.base_url endpoint) none)

/-- The spec's contract for one verb call (spec §4.2), stated from the spec's
words to compare against the embedded methods: a transport failure raises the
typed transport error; a non-success HTTP status raises the typed HTTP error
carrying that status code and body; a success response with a parsed body is
returned; and a normal return only ever comes from a success response. -/
def VerbContractSpec {J : Type} (o : ReqOutcome J) (r : Except APIError J) : Prop :=
  (o = ReqOutcome.transportFail → r = Except.error APIError.transportError) ∧
  (∀ status body json, o = ReqOutcome.resp status body json →
    is_success status = false → r = Except.error (APIError.httpError status body)) ∧
  (∀ status body v, o = ReqOutcome.resp status body (some v) →
    is_success status = true → r = Except.ok v) ∧
  (∀ v, r = Except.ok v →
    ∃ status body, o = ReqOutcome.resp status body (some v) ∧ is_success status = true)

/-- The shared request tail satisfies the verb contract. -/
theorem doRequest_contract {J : Type} (o : ReqOutcome J) :
    VerbContractSpec o (doRequest o) := by
  unfold VerbContractSpec
  cases o with
  | transportFail =>
    refine ⟨fun _ => rfl, ?_, ?_, ?_⟩
    · intro s b j h hfail
      cases h
    · intro s b v h hs
      cases h
    · intro v h
      simp [doRequest] at h
  | resp status body json =>
    refine ⟨?_, ?_, ?_, ?_⟩
    · intro h
      cases h
    · intro s b j h hfail
      cases h
      simp [doRequest, raise_for_status, hfail]
    · intro s b v h hs
      cases h
      simp [doRequest, raise_for_status, hs]
    · intro v h
      by_cases hs : is_success status = true
      · cases json with
        | some w =>
          have hw : w = v := by
            simpa [doRequest, raise_for_status, hs] using h
          exact ⟨status, body, by rw [hw], hs⟩
        | none => simp [doRequest, raise_for_status, hs] at h
      · simp [doRequest, raise_for_status, hs] at h

/-- Claim C6: for every network behaviour, relative path and payload, each
verb method of the Result Client (`get`, `post`, `put`, `delete`) either
returns the parsed JSON body of a success response or fails with a typed
error: the typed HTTP error carrying the response's status code and body on
any non-success status, the typed transport error on a connection or timeout
failure; and it never returns normally on a non-2xx response. -/
theorem apiclient_verb_contract {J P : Type} (c : APIClient)
    (net : Verb → String → Option P → ReqOutcome J) (endpoint : String)
    (payload : Option P) :
    VerbContractSpec (net Verb.get (urljoinRel c.base_url endpoint) payload)
      (c.get net endpoint payload) ∧
    VerbContractSpec (net Verb.post (urljoinRel c.base_url endpoint) payload)
      (c.post net endpoint payload) ∧
    VerbContractSpec (net Verb.put (urljoinRel c.base_url endpoint) payload)
      (c.put net endpoint payload) ∧
    VerbContractSpec (net Verb.delete (urljoinRel c.base_url endpoint) none)
      (c.delete net endpoint) :=
  ⟨doRequest_contract _, doRequest_contract _, doRequest_contract _,
    doRequest_contract _⟩

/-! ## Connection-pool lifecycle of `APIClient` (utils.py lines 26-36)

```
async def close(self):
    if self.client:
        await self.client.aclose()
        self.client = None

async def _get_client(self):
    if not self.client:
        self.client = httpx.AsyncClient(timeout=self.timeout)
    return self.client
```

Every verb method and `health_check` call `_get_client`.  The mutable
instance state is embedded explicitly: `client` holds the identifier of the
current underlying `httpx.AsyncClient` (numbered in creation order) and
`created` counts how many have been constructed.  A run of the instance is a
list of operations — a verb/health-check call (`request`) or `close` — folded
over the state from a fresh instance. -/

/-- The mutable pool state of one `APIClient` instance. -/
structure ClientPoolState where
  client : Option Nat
  created : Nat
deriving DecidableEq, Repr

/-- `_get_client`: reuse the current client, or lazily construct the next
one.  Returns the new state and the identifier handed to the caller. -/
def get_client (s : ClientPoolState) : ClientPoolState × Nat :=
  match s.client with
  | some c => (s, c)
  | none => (⟨some s.created, s.created + 1⟩, s.created)

/-- `close`: drops the current client (`self.client = None`); it does not
undo any construction. -/
def close_client (s : ClientPoolState) : ClientPoolState :=
  ⟨none, s.created⟩

/-- One operation on an `APIClient` instance: a verb or health-check call
(each goes through `_get_client`), or an explicit `close`. -/
inductive ClientOp where
  | request
  | closeOp
deriving DecidableEq, Repr

/-- Fold a list of operations over the instance state. -/
def runClientOps : ClientPoolState → List ClientOp → ClientPoolState
  | s, [] => s
  | s, ClientOp.request :: rest => runClientOps (get_client s).1 rest
  | s, ClientOp.closeOp :: rest => runClientOps (close_client s) rest

/-- A freshly constructed `APIClient`: `self.client = None`, nothing
created yet. -/
def initClientPool : ClientPoolState :=
  ⟨none, 0⟩

/-- How many explicit closes a run performs. -/
def closeCount (ops : List ClientOp) : Nat :=
  ops.countP fun o =>
    match o with
    | ClientOp.closeOp => true
    | ClientOp.request => false

/-- Invariant: a run constructs at most one client per close, plus one more
when the state it starts from has no current client. -/
theorem runClientOps_created_le (ops : List ClientOp) :
    ∀ s : ClientPoolState,
      (runClientOps s ops).created ≤
        s.created + closeCount ops + (if s.client.isNone then 1 else 0) := by
  induction ops with
  | nil =>
    intro s
    simp only [runClientOps, closeCount, List.countP_nil]
    split <;> omega
  | cons op rest ih =>
    intro s
    cases op with
    | request =>
      cases hc : s.client with
      | some c =>
        have h := ih s
        simp [runClientOps, get_client, hc, closeCount, List.countP_cons] at h ⊢
        omega
      | none =>
        have h := ih ⟨some s.created, s.created + 1⟩
        simp [runClientOps, get_client, hc, closeCount, List.countP_cons] at h ⊢
        omega
    | closeOp =>
      have h := ih (close_client s)
      simp [runClientOps, close_client, closeCount, List.countP_cons] at h ⊢
      cases hc : s.client <;> simp [hc] <;> omega

/-- Counterexample to C8: after an explicit `close`, the next call lazily
constructs a second underlying `httpx.AsyncClient`: the operation sequence
request-close-request has constructed two clients by the end, where
request-close had constructed one — so a new connection pool is created by
the instance after it was explicitly closed. -/
theorem apiclient_second_pool_after_close :
    (runClientOps initClientPool [ClientOp.request, ClientOp.closeOp]).created = 1 ∧
    (runClientOps initClientPool
      [ClientOp.request, ClientOp.closeOp, ClientOp.request]).created = 2 := by
  exact ⟨rfl, rfl⟩

/-- Claim C8, amended: an `APIClient` instance maintains at most one
underlying connection pool per close epoch: a run that never closes
constructs at most one underlying client, which every call reuses, and in
general a run constructs at most one client more than the number of explicit
closes — but a verb call made after an explicit close lazily constructs a
fresh pool rather than being refused. -/
theorem apiclient_one_pool_per_epoch :
    (∀ ops, (runClientOps initClientPool ops).created ≤ closeCount ops + 1) ∧
    (∀ ops, closeCount ops = 0 →
      (runClientOps initClientPool ops).created ≤ 1) := by
  constructor
  · intro ops
    have h := runClientOps_created_le ops initClientPool
    simpa [initClientPool] using h
  · intro ops h0
    have h := runClientOps_created_le ops initClientPool
    simp [initClientPool, h0] at h
    simpa using h

/-! ## Query Facade (`OpenSearchQueries`, os_queries.py lines 173-241)

Each static builder returns a plain nested dict; the embedding uses a
JSON-like value type and association lists, preserving the insertion order in
which the Python code builds each dict. -/

/-- Structured JSON-like values: the filter expressions the builders
return and the payload values a document carries. -/
inductive JsonVal where
  | str (s : String)
  | num (n : Int)
  | boolean (b : Bool)
  | arr (xs : List JsonVal)
  | obj (fields : List (String × JsonVal))

namespace OpenSearchQueries

/-- `match_all()`. -/
def match_all : JsonVal :=
  JsonVal.obj [("match_all", JsonVal.obj [])]

/-- `term_query(field, value)`. -/
def term_query (field : String) (value : String) : JsonVal :=
  JsonVal.obj [("term", JsonVal.obj [(field, JsonVal.str value)])]

/-- `terms_query(field, values)`. -/
def terms_query (field : String) (values : List String) : JsonVal :=
  JsonVal.obj [("terms", JsonVal.obj [(field, JsonVal.arr (values.map JsonVal.str))])]

/-- The `range_params` dict `range_query` builds: one entry per bound
argument that was provided (`is not None`), appended in the order
gte, lte, gt, lt. -/
def rangeParams (gte lte gt lt : Option JsonVal) : List (String × JsonVal) :=
  (gte.map fun v => ("gte", v)).toList ++ (lte.map fun v => ("lte", v)).toList ++
    (gt.map fun v => ("gt", v)).toList ++ (lt.map fun v => ("lt", v)).toList

/-- `range_query(field, gte, lte, gt, lt)`. -/
def range_query (field : String) (gte lte gt lt : Option JsonVal) : JsonVal :=
  JsonVal.obj [("range", JsonVal.obj [(field, JsonVal.obj (rangeParams gte lte gt lt))])]

/-- The `bool_params` dict `bool_query` builds.  Python truthiness: a `None`
or empty list argument contributes no key; both are modelled as `[]`. -/
def boolParams (must should must_not filterList : List JsonVal) :
    List (String × JsonVal) :=
  (if must.isEmpty then [] else [("must", JsonVal.arr must)]) ++
    (if should.isEmpty then [] else [("should", JsonVal.arr should)]) ++
    (if must_not.isEmpty then [] else [("must_not", JsonVal.arr must_not)]) ++
    (if filterList.isEmpty then [] else [("filter", JsonVal.arr filterList)])

/-- `bool_query(must, should, must_not, filter)`. -/
def bool_query (must should must_not filterList : List JsonVal) : JsonVal :=
  JsonVal.obj [("bool", JsonVal.obj (boolParams must should must_not filterList))]

/-- `exists_query(field)`. -/
def exists_query (field : String) : JsonVal :=
  JsonVal.obj [("exists", JsonVal.obj [("field", JsonVal.str field)])]

/-- `wildcard_query(field, pattern)`. -/
def wildcard_query (field : String) (pat : String) : JsonVal :=
  JsonVal.obj [("wildcard", JsonVal.obj [(field, JsonVal.str pat)])]

/-- `time_range_query(field, start_time, end_time)` delegates to
`range_query` with the two inclusive bounds. -/
def time_range_query (field : String) (start_time end_time : String) : JsonVal :=
  range_query field (some (JsonVal.str start_time)) (some (JsonVal.str end_time))
    none none

end OpenSearchQueries

/-- Every key of the `range_params` dict is one of the four bound names. -/
theorem rangeParams_keys (gte lte gt lt : Option JsonVal) :
    ∀ kv ∈ OpenSearchQueries.rangeParams gte lte gt lt,
      kv.1 ∈ (["gte", "lte", "gt", "lt"] : List String) := by
  intro kv hkv
  simp only [OpenSearchQueries.rangeParams, List.mem_append] at hkv
  rcases hkv with ((h | h) | h) | h
  · rcases gte with _ | gv <;> simp_all
  · rcases lte with _ | lv <;> simp_all
  · rcases gt with _ | gv2 <;> simp_all
  · rcases lt with _ | lv2 <;> simp_all

/-- Every key of the `bool_params` dict is one of the four clause names. -/
theorem boolParams_keys (must should must_not filterList : List JsonVal) :
    ∀ kv ∈ OpenSearchQueries.boolParams must should must_not filterList,
      kv.1 ∈ (["must", "should", "must_not", "filter"] : List String) := by
  intro kv hkv
  simp only [OpenSearchQueries.boolParams, List.mem_append] at hkv
  rcases hkv with ((h | h) | h) | h <;> split at h <;> simp_all

/-- Claim C7: every query-builder of the Query Facade is a pure function of
its field name(s) and value(s) — each embeds as a total function on plain
data, so is deterministic and performs no I/O — and returns the corresponding
structured filter expression: `term_query f v = obj [term: obj [f: v]]` and
so on, `range_query` includes exactly the bound keys whose arguments were
provided, and `bool_query` includes exactly the clause keys whose argument
lists are truthy (non-empty). -/
theorem opensearch_query_builders (field pat start_time end_time value : String)
    (values : List String) (gte lte gt lt : Option JsonVal)
    (must should must_not filterList : List JsonVal) :
    OpenSearchQueries.match_all = JsonVal.obj [("match_all", JsonVal.obj [])] ∧
    OpenSearchQueries.term_query field value =
      JsonVal.obj [("term", JsonVal.obj [(field, JsonVal.str value)])] ∧
    OpenSearchQueries.terms_query field values =
      JsonVal.obj [("terms", JsonVal.obj
        [(field, JsonVal.arr (values.map JsonVal.str))])] ∧
    OpenSearchQueries.exists_query field =
      JsonVal.obj [("exists", JsonVal.obj [("field", JsonVal.str field)])] ∧
    OpenSearchQueries.wildcard_query field pat =
      JsonVal.obj [("wildcard", JsonVal.obj [(field, JsonVal.str pat)])] ∧
    OpenSearchQueries.time_range_query field start_time end_time =
      OpenSearchQueries.range_query field (some (JsonVal.str start_time))
        (some (JsonVal.str end_time)) none none ∧
    OpenSearchQueries.range_query field gte lte gt lt =
      JsonVal.obj [("range", JsonVal.obj
        [(field, JsonVal.obj (OpenSearchQueries.rangeParams gte lte gt lt))])] ∧
    (∀ v, ("gte", v) ∈ OpenSearchQueries.rangeParams gte lte gt lt ↔ gte = some v) ∧
    (∀ v, ("lte", v) ∈ OpenSearchQueries.rangeParams gte lte gt lt ↔ lte = some v) ∧
    (∀ v, ("gt", v) ∈ OpenSearchQueries.rangeParams gte lte gt lt ↔ gt = some v) ∧
    (∀ v, ("lt", v) ∈ OpenSearchQueries.rangeParams gte lte gt lt ↔ lt = some v) ∧
    (∀ kv ∈ OpenSearchQueries.rangeParams gte lte gt lt,
      kv.1 ∈ (["gte", "lte", "gt", "lt"] : List String)) ∧
    OpenSearchQueries.bool_query must should must_not filterList =
      JsonVal.obj [("bool", JsonVal.obj
        (OpenSearchQueries.boolParams must should must_not filterList))] ∧
    (("must", JsonVal.arr must) ∈
        OpenSearchQueries.boolParams must should must_not filterList ↔
      must ≠ []) ∧
    (("should", JsonVal.arr should) ∈
        OpenSearchQueries.boolParams must should must_not filterList ↔
      should ≠ []) ∧
    (("must_not", JsonVal.arr must_not) ∈
        OpenSearchQueries.boolParams must should must_not filterList ↔
      must_not ≠ []) ∧
    (("filter", JsonVal.arr filterList) ∈
        OpenSearchQueries.boolParams must should must_not filterList ↔
      filterList ≠ []) ∧
    (∀ kv ∈ OpenSearchQueries.boolParams must should must_not filterList,
      kv.1 ∈ (["must", "should", "must_not", "filter"] : List String)) := by
  refine ⟨rfl, rfl, rfl, rfl, rfl, rfl, rfl, ?_, ?_, ?_, ?_, ?_, rfl, ?_, ?_, ?_, ?_, ?_⟩
  · intro v
    rcases gte with _ | gv <;> rcases lte with _ | lv <;>
      rcases gt with _ | gv2 <;> rcases lt with _ | lv2 <;>
        simp [OpenSearchQueries.rangeParams, eq_comm]
  · intro v
    rcases gte with _ | gv <;> rcases lte with _ | lv <;>
      rcases gt with _ | gv2 <;> rcases lt with _ | lv2 <;>
        simp [OpenSearchQueries.rangeParams, eq_comm]
  · intro v
    rcases gte with _ | gv <;> rcases lte with _ | lv <;>
      rcases gt with _ | gv2 <;> rcases lt with _ | lv2 <;>
        simp [OpenSearchQueries.rangeParams, eq_comm]
  · intro v
    rcases gte with _ | gv <;> rcases lte with _ | lv <;>
      rcases gt with _ | gv2 <;> rcases lt with _ | lv2 <;>
        simp [OpenSearchQueries.rangeParams, eq_comm]
  · exact rangeParams_keys gte lte gt lt
  · rcases must with _ | ⟨m, ms⟩ <;> simp [OpenSearchQueries.boolParams]
  · rcases should with _ | ⟨q, qs⟩ <;>
      rcases must with _ | ⟨m, ms⟩ <;> simp [OpenSearchQueries.boolParams]
  · rcases must_not with _ | ⟨n, ns⟩ <;> rcases should with _ | ⟨q, qs⟩ <;>
      rcases must with _ | ⟨m, ms⟩ <;> simp [OpenSearchQueries.boolParams]
  · rcases filterList with _ | ⟨f, fs⟩ <;> rcases must_not with _ | ⟨n, ns⟩ <;>
      rcases should with _ | ⟨q, qs⟩ <;> rcases must with _ | ⟨m, ms⟩ <;>
      simp [OpenSearchQueries.boolParams]
  · exact boolParams_keys must should must_not filterList

/-! ## `mask_sensitive_data` (utils.py lines 277-297)

```
masked_data = data.copy()
for field in sensitive_fields:
    if field in masked_data:
        masked_data[field] = "***MASKED***"
return masked_data
```

A dict is embedded as an association list in insertion order.  The copy makes
the function value-semantic at the top level — the caller's dict is never
mutated — which the pure embedding reflects by construction.  Assignment to a
key that is present keeps that key's slot (Python dicts preserve insertion
order and in-place updates), so it is a positional update. -/

/-- The masking constant `"***MASKED***"`. -/
def MASKED : JsonVal := JsonVal.str "***MASKED***"

/-- `masked_data[field] = v` when `field` is already a key: overwrite the
value in its slot. -/
def dictSet (d : List (String × JsonVal)) (key : String) (v : JsonVal) :
    List (String × JsonVal) :=
  d.map fun p => if p.1 = key then (key, v) else p

/-- `field in masked_data`. -/
def dictHasKey (d : List (String × JsonVal)) (key : String) : Bool :=
  d.any fun p => p.1 == key

/-- `mask_sensitive_data(data, sensitive_fields)` with an explicit sensitive
list (the Python default, used when the argument is `None`, is
`['password', 'secret', 'token', 'key', 'api_key']`). -/
def mask_sensitive_data (data : List (String × JsonVal))
    (sensitive_fields : List String) : List (String × JsonVal) :=
  sensitive_fields.foldl
    (fun masked_data fieldName =>
      if dictHasKey masked_data fieldName then dictSet masked_data fieldName MASKED
      else masked_data)
    data

/-- Rewriting one `dictSet` step into the pointwise description: masking key
`f` and then masking the keys of `rest` is masking the keys of `f :: rest`. -/
theorem dictSet_then_mask (f : String) (rest : List String)
    (data : List (String × JsonVal)) :
    ((dictSet data f MASKED).map fun p => if p.1 ∈ rest then (p.1, MASKED) else p) =
      data.map fun p => if p.1 ∈ f :: rest then (p.1, MASKED) else p := by
  induction data with
  | nil => rfl
  | cons q qs ihd =>
    simp only [dictSet, List.map_cons] at ihd ⊢
    refine congrArg₂ List.cons ?_ ihd
    by_cases hf : q.1 = f
    · by_cases hr : f ∈ rest <;> simp [hf, hr, List.mem_cons]
    · by_cases hr : q.1 ∈ rest <;> simp [hf, hr, List.mem_cons]

/-- A skipped field (not a key of the dict) masks nothing, and a dict has no
entry carrying it. -/
theorem mask_skip (f : String) (rest : List String)
    (data : List (String × JsonVal)) (hf : dictHasKey data f = false) :
    (data.map fun p => if p.1 ∈ rest then (p.1, MASKED) else p) =
      data.map fun p => if p.1 ∈ f :: rest then (p.1, MASKED) else p := by
  refine List.map_congr_left fun p hp => ?_
  have hne : p.1 ≠ f := by
    intro he
    have : dictHasKey data f = true := by
      simp only [dictHasKey, List.any_eq_true]
      exact ⟨p, hp, by simp [he]⟩
    rw [this] at hf
    cases hf
  by_cases hr : p.1 ∈ rest <;> simp [hr, List.mem_cons, hne]

/-- The fold of `mask_sensitive_data` equals the pointwise description. -/
theorem mask_sensitive_data_eq_map (sensitive_fields : List String) :
    ∀ data : List (String × JsonVal),
      mask_sensitive_data data sensitive_fields =
        data.map fun p => if p.1 ∈ sensitive_fields then (p.1, MASKED) else p := by
  induction sensitive_fields with
  | nil =>
    intro data
    simp [mask_sensitive_data]
  | cons f rest ih =>
    intro data
    simp only [mask_sensitive_data, List.foldl_cons] at ih ⊢
    by_cases hf : dictHasKey data f = true
    · rw [if_pos hf, ih (dictSet data f MASKED), dictSet_then_mask]
    · rw [Bool.not_eq_true] at hf
      rw [if_neg (by simp [hf]), ih data, mask_skip f rest data hf]

/-- Claim C10: for every input dictionary and every list of sensitive field
names, `mask_sensitive_data` leaves the input unchanged (it works on a copy;
the embedding is value-semantic by construction) and returns a dictionary
with exactly the input's keys, in which every top-level field named in the
sensitive list is replaced by the constant `"***MASKED***"` and every other
top-level field keeps its original value. -/
theorem mask_sensitive_data_masks_exactly :
    ∀ (data : List (String × JsonVal)) (sensitive_fields : List String),
      mask_sensitive_data data sensitive_fields =
        (data.map fun p => if p.1 ∈ sensitive_fields then (p.1, MASKED) else p) ∧
      (mask_sensitive_data data sensitive_fields).map Prod.fst =
        data.map Prod.fst ∧
      (∀ p ∈ data, p.1 ∉ sensitive_fields →
        p ∈ mask_sensitive_data data sensitive_fields) ∧
      (∀ p ∈ data, p.1 ∈ sensitive_fields →
        (p.1, MASKED) ∈ mask_sensitive_data data sensitive_fields) := by
  intro data s
  have h := mask_sensitive_data_eq_map s data
  refine ⟨h, ?_, ?_, ?_⟩
  · rw [h, List.map_map]
    refine List.map_congr_left fun p _ => ?_
    by_cases hp : p.1 ∈ s <;> simp [hp]
  · intro p hp hns
    rw [h]
    exact List.mem_map.mpr ⟨p, hp, by simp [hns]⟩
  · intro p hp hs
    rw [h]
    exact List.mem_map.mpr ⟨p, hp, by simp [hs]⟩
